import Mathlib

/-!
Verification of the `hex` agent (src/hex.py) against its specification.

The program is a single-file Python agent: a Tool Executor (`execute_tool`),
an Agent Loop (the inner `while True` of `chat`), a Session Shell (the outer
loop of `chat`), and an HTTP transport (`call_claude`).  This file gives a
shallow embedding of those functions and proves the spec's claims about them.

Modelling conventions:
- JSON tool-input mappings become association lists `List (String × Value)`
  with `Value` a string or boolean scalar (the only scalar kinds the tool
  schemas declare).
- The filesystem is a state `FSState`: a partial map from path strings to
  file contents plus a set of existing directories.  `pathlib.Path` string
  normalisation is modelled as the identity apart from `expanduser`;
  `Path.read_text()` opens in universal-newlines text mode, so reading
  translates `\r\n` and `\r` to `\n` (modelled by `univNewlines`);
  text-decode failures and OS-level permission errors are not modelled
  (each would only add further branches that return an error string).
- `subprocess.run` is an oracle `CmdOracle`; `none` models an exception
  (timeout or spawn failure), which the Python code converts to an error
  string through its catch-all handler.
- Python string operations are embedded over `String.data` (lists of
  code points), matching Python semantics where `s[:n]`, `strip`, `lower`
  operate on code points.  ASCII-only lowering/whitespace is modelled,
  which covers every string the program compares against.
-/

namespace Hex

/-- A JSON scalar value appearing in a tool `input` mapping. -/
inductive Value
  | str (s : String)
  | bool (b : Bool)
deriving DecidableEq, Repr

/-- A tool input mapping, as the Python `dict` passed to `execute_tool`. -/
abbrev ToolInput := List (String × Value)

/-- Python truthiness of a scalar, as used by `if input.get("sudo"):`. -/
def truthy : Value → Bool
  | .str s => s ≠ ""
  | .bool b => b

/-- Result of `subprocess.run(..., capture_output=True, text=True)`. -/
structure CmdResult where
  stdout : String
  stderr : String
  returncode : Int
deriving DecidableEq, Repr

/-- The host shell: maps a command line to its result; `none` models an
exception (`TimeoutExpired` after 60s, or a spawn failure), which
`execute_tool` catches. -/
abbrev CmdOracle := String → Option CmdResult

/-- Host filesystem state: file contents and existing directories. -/
structure FSState where
  files : String → Option String
  dirs : String → Bool

/-- `Path(p).expanduser()`: a leading `~` is replaced by the home directory.
The `~user` form is not modelled (never produced by the claims). -/
def expanduser (home p : String) : String :=
  if p = "~" then home
  else if p.data.take 2 = ['~', '/'] then home ++ p.drop 1
  else p

/-- Split a character list on `/` separators. -/
def splitSlash : List Char → List (List Char)
  | [] => [[]]
  | c :: cs =>
    let r := splitSlash cs
    if c = '/' then [] :: r
    else
      match r with
      | [] => [[c]]
      | h :: t => (c :: h) :: t

/-- Join components with `/` separators. -/
def joinSlash : List (List Char) → List Char
  | [] => []
  | [l] => l
  | l :: ls => l ++ '/' :: joinSlash ls

/-- `Path(p).parent` as a string: drop the last `/`-separated component
(`.` when there is none).  Root edge cases of `pathlib` are not modelled. -/
def parentDir (p : String) : String :=
  let parts := splitSlash p.data
  if parts.length ≤ 1 then "." else ⟨joinSlash parts.dropLast⟩

/-- Nonempty prefixes of a list, shortest first. -/
def neInits {α : Type} : List α → List (List α)
  | [] => []
  | x :: xs => [x] :: (neInits xs).map (fun l => x :: l)

/-- The directories `Path(d).mkdir(parents=True, exist_ok=True)` ensures
exist: `d` itself and every `/`-separated ancestor. -/
def ancestors (d : String) : List String :=
  (neInits (splitSlash d.data)).map (fun l => ⟨joinSlash l⟩)

/-- Effect of `mkdir(parents=True, exist_ok=True)` on the directory set. -/
def mkdirAll (d : String) (dirs : String → Bool) : String → Bool :=
  fun x => decide (x ∈ ancestors d) || dirs x

/-- The `sudo` flag of a `run_command` input: `input.get("sudo")` is `None`
(falsy) when absent, otherwise its Python truthiness. -/
def sudoFlag (input : ToolInput) : Bool :=
  match input.lookup "sudo" with
  | some v => truthy v
  | none => false

/-- Universal-newline translation performed by `Path.read_text()` (text
mode with `newline=None`): each `\r\n` pair and each lone `\r` in the
stored bytes is read back as `\n`.  (`write_text` on Linux writes `\n` as
itself, so writing needs no translation.) -/
def univNewlines : List Char → List Char
  | [] => []
  | [c] => if c = '\r' then ['\n'] else [c]
  | c :: d :: cs =>
    if c = '\r' then
      if d = '\n' then '\n' :: univNewlines cs
      else '\n' :: univNewlines (d :: cs)
    else c :: univNewlines (d :: cs)

/-- Embedding of `execute_tool(name, input)` from src/hex.py lines 146-181.
It returns the result string together with the filesystem after the call.
Every Python exception path is a branch returning an `"Error: ..."` string,
mirroring the catch-all `except Exception as e: return f"Error: \x7be\x7d"`;
the exact message text of OS/type errors is modelled descriptively, the
`KeyError` messages (`"Error: \x27path\x27"` etc.) exactly. -/
def execute_tool (home : String) (oc : CmdOracle) (name : String)
    (input : ToolInput) (fs : FSState) : String × FSState :=
  if name = "run_command" then
    match input.lookup "command" with
    | none => ("Error: \x27command\x27", fs)
    | some (.bool _) => ("Error: command must be a string", fs)
    | some (.str c) =>
      let cmd := if sudoFlag input then "sudo " ++ c else c
      match oc cmd with
      | none => ("Error: command timed out or could not be run", fs)
      | some res =>
        let output := res.stdout
        let output := if res.stderr ≠ "" then output ++ "\nSTDERR: " ++ res.stderr else output
        let output :=
          if res.returncode ≠ 0 then output ++ "\n[exit code: " ++ toString res.returncode ++ "]"
          else output
        (if output = "" then "(no output)" else output, fs)
  else if name = "read_file" then
    match input.lookup "path" with
    | none => ("Error: \x27path\x27", fs)
    | some (.bool _) => ("Error: path must be a string", fs)
    | some (.str p) =>
      let q := expanduser home p
      match fs.files q with
      | none => ("Error: [Errno 2] No such file or directory: \x27" ++ q ++ "\x27", fs)
      | some content => (⟨univNewlines content.data⟩, fs)
  else if name = "write_file" then
    match input.lookup "path" with
    | none => ("Error: \x27path\x27", fs)
    | some (.bool _) => ("Error: path must be a string", fs)
    | some (.str p) =>
      let q := expanduser home p
      let fs1 : FSState := { fs with dirs := mkdirAll (parentDir q) fs.dirs }
      match input.lookup "content" with
      | none => ("Error: \x27content\x27", fs1)
      | some (.bool _) => ("Error: data must be a string", fs1)
      | some (.str content) =>
        ("Wrote " ++ toString content.length ++ " bytes to " ++ q,
         { fs1 with files := fun x => if x = q then some content else fs.files x })
  else ("Unknown tool: " ++ name, fs)

/-- A content block of an assistant reply (`response["content"]`).  Blocks
whose `type` is neither `text` nor `tool_use` are skipped by the loop. -/
inductive Block
  | text (s : String)
  | tool_use (id name : String) (input : ToolInput)
  | other (ty : String)
deriving DecidableEq, Repr

/-- An assistant reply's content array. -/
abbrev Reply := List Block

/-- A collected `tool_use` block, as gathered into `tool_calls`. -/
structure ToolUse where
  id : String
  name : String
  input : ToolInput
deriving DecidableEq, Repr

/-- The `tool_calls` list built by the loop: the `tool_use` blocks of the
reply, in order of appearance. -/
def toolCalls (content : Reply) : List ToolUse :=
  content.filterMap fun b =>
    match b with
    | .tool_use i n inp => some ⟨i, n, inp⟩
    | _ => none

/-- The `text_parts` list built by the loop. -/
def textParts (content : Reply) : List String :=
  content.filterMap fun b =>
    match b with
    | .text s => some s
    | _ => none

/-- A `tool_result` block as appended to history (its `type` field is the
constant `"tool_result"` and is left implicit). -/
structure ToolResult where
  tool_use_id : String
  content : String
deriving DecidableEq, Repr

/-- The content of a history message: the user's plain text, an assistant
reply's block list, or a list of tool results. -/
inductive MsgContent
  | text (s : String)
  | blocks (bs : List Block)
  | results (rs : List ToolResult)
deriving DecidableEq, Repr

/-- A history message `\x7b"role": ..., "content": ...\x7d`. -/
structure Message where
  role : String
  content : MsgContent
deriving DecidableEq, Repr

/-- Observable events of one turn: a Transport call (`call_claude`) or one
Tool Executor call (`execute_tool`), recorded as they happen. -/
inductive Event
  | transportCall
  | toolExec (name : String) (input : ToolInput)
deriving DecidableEq, Repr

/-- Python slicing `s[:n]` (by code points). -/
def truncTo (n : Nat) (s : String) : String :=
  ⟨s.data.take n⟩

/-- The `for tool in tool_calls:` loop of `chat` (src/hex.py lines 256-263):
executes each requested tool in order, wraps each result as a `tool_result`
block with the originating id and the result truncated to 10000 characters,
and records one Executor event per call. -/
def execTools (home : String) (oc : CmdOracle) :
    List ToolUse → FSState → List ToolResult × FSState × List Event
  | [], fs => ([], fs, [])
  | t :: ts, fs =>
    let r := execute_tool home oc t.name t.input fs
    let rest := execTools home oc ts r.2
    (⟨t.id, truncTo 10000 r.1⟩ :: rest.1, rest.2.1, Event.toolExec t.name t.input :: rest.2.2)

/-- The inner agent loop of `chat` (src/hex.py lines 230-265).  The
transport is modelled as a script of successful replies consumed one per
`call_claude` invocation (`none` when the script runs out; the fatal
non-200 path of `call_claude` is modelled separately).  Returns the final
message history, filesystem, and the event trace of the turn. -/
def runAgentLoop (home : String) (oc : CmdOracle) :
    List Reply → List Message → FSState → Option (List Message × FSState × List Event)
  | [], _, _ => none
  | r :: rest, msgs, fs =>
    let tcs := toolCalls r
    if tcs = [] then
      some (msgs ++ [⟨"assistant", .blocks r⟩], fs, [Event.transportCall])
    else
      let e := execTools home oc tcs fs
      match runAgentLoop home oc rest
          (msgs ++ [⟨"assistant", .blocks r⟩, ⟨"user", .results e.1⟩]) e.2.1 with
      | none => none
      | some (m, f, evs) => some (m, f, Event.transportCall :: e.2.2 ++ evs)

/-- ASCII whitespace, as stripped by Python `str.strip()` (other Unicode
whitespace is out of scope for the strings this program compares). -/
def isWs (c : Char) : Bool :=
  c = ' ' || c = '\t' || c = '\n' || c = '\r' || c = '\x0b' || c = '\x0c'

/-- Python `str.strip()` over code points. -/
def pyStrip (s : String) : String :=
  ⟨((s.data.dropWhile isWs).reverse.dropWhile isWs).reverse⟩

/-- ASCII lowering of one character (Python `str.lower()` restricted to
ASCII, which covers the exit keywords). -/
def lowerChar (c : Char) : Char :=
  if 65 ≤ c.toNat ∧ c.toNat ≤ 90 then Char.ofNat (c.toNat + 32) else c

/-- Python `str.lower()` (ASCII). -/
def pyLower (s : String) : String :=
  ⟨s.data.map lowerChar⟩

/-- The exit keywords of the session shell. -/
def quitWords : List String := ["exit", "quit", "q"]

/-- What the session shell does with one line of user input. -/
inductive InputAction
  | skip
  | quit
  | proceed (s : String)
deriving DecidableEq, Repr

/-- The input handling of the outer loop of `chat` (src/hex.py lines
216-225): strip; blank input skips the turn; an exit keyword ends the
session; otherwise the stripped text proceeds into the agent loop. -/
def classifyInput (raw : String) : InputAction :=
  let s := pyStrip raw
  if s = "" then .skip
  else if pyLower s ∈ quitWords then .quit
  else .proceed s

/-- One iteration of the outer loop of `chat` (src/hex.py lines 214-265):
classify the input; on `skip` and `quit` nothing is appended and no
transport call happens (empty event trace); otherwise the stripped input is
appended as a user message and the agent loop runs. -/
def userTurn (home : String) (oc : CmdOracle) (raw : String) (replies : List Reply)
    (msgs : List Message) (fs : FSState) : Option (List Message × FSState × List Event) :=
  match classifyInput raw with
  | .skip => some (msgs, fs, [])
  | .quit => some (msgs, fs, [])
  | .proceed s => runAgentLoop home oc replies (msgs ++ [⟨"user", .text s⟩]) fs

/-- An HTTP response as seen by `call_claude`: status code, raw body text,
and the parsed `content` array of the JSON body. -/
structure HttpResponse where
  status_code : Nat
  text : String
  json : Reply
deriving DecidableEq, Repr

/-- Outcome of `call_claude`: either the process exits with the given code
after printing the surfaced lines, or the parsed reply is returned. -/
inductive TransportOutcome
  | exitProcess (code : Nat) (surfaced : List String)
  | success (content : Reply)
deriving DecidableEq, Repr

/-- Embedding of the response handling of `call_claude` (src/hex.py lines
291-296): non-200 prints the status and raw body and exits the process
with code 1; 200 returns the parsed body. -/
def call_claude (resp : HttpResponse) : TransportOutcome :=
  if resp.status_code ≠ 200 then
    .exitProcess 1 ["API Error: " ++ toString resp.status_code, resp.text]
  else
    .success resp.json

/-- Characters that may remain after pty-output sanitization: tab, CR, LF,
and printable characters other than DEL and the CLI's rendering-artifact
character U+2800. -/
def keepChar (c : Char) : Bool :=
  c = '\n' || c = '\t' || c = '\r' ||
    (decide (32 ≤ c.toNat) && decide (c.toNat ≠ 127) && c ≠ '⠀')

/-- States of the sanitizer: outside any escape sequence, just after ESC,
inside a CSI sequence, inside an OSC sequence (possibly after ESC of a
string terminator), inside a DCS sequence (likewise). -/
inductive SanMode
  | normal
  | esc
  | csi
  | osc
  | oscEsc
  | dcs
  | dcsEsc
deriving DecidableEq, Repr

/-- Modelled from the spec: the pty-bridge output sanitizer is described in
§4.3 but its code is not under src/.  One transition of the sanitizer:
given the current mode and the next character, the next mode and whether
the character is kept.  ESC+`[` opens a CSI sequence (consumed up to its
final byte 0x40-0x7E), ESC+`]` an OSC sequence (consumed up to BEL or
ESC+backslash), ESC+`P` a DCS sequence (consumed up to ESC+backslash);
outside sequences, control bytes other than tab/CR/LF, DEL, and the
artifact character U+2800 are dropped and everything else is kept. -/
def sanStep (m : SanMode) (c : Char) : SanMode × Bool :=
  match m with
  | .normal => if c = '\x1b' then (.esc, false) else (.normal, keepChar c)
  | .esc =>
    if c = '[' then (.csi, false)
    else if c = ']' then (.osc, false)
    else if c = 'P' then (.dcs, false)
    else if c = '\x1b' then (.esc, false)
    else (.normal, keepChar c)
  | .csi => if 64 ≤ c.toNat ∧ c.toNat ≤ 126 then (.normal, false) else (.csi, false)
  | .osc =>
    if c = '\x07' then (.normal, false)
    else if c = '\x1b' then (.oscEsc, false)
    else (.osc, false)
  | .oscEsc => if c = '\\' then (.normal, false) else (.osc, false)
  | .dcs => if c = '\x1b' then (.dcsEsc, false) else (.dcs, false)
  | .dcsEsc => if c = '\\' then (.normal, false) else (.dcs, false)

/-- Modelled from the spec: run of the sanitizer from a given mode. -/
def sanAux (m : SanMode) : List Char → List Char
  | [] => []
  | c :: cs =>
    let st := sanStep m c
    if st.2 then c :: sanAux st.1 cs else sanAux st.1 cs

/-- Modelled from the spec: the pty-output sanitization of §4.3 — strip
CSI/OSC/DCS escape sequences, the CLI's artifact token, and stray control
bytes outside the printable/whitespace range. -/
def sanitize_output (s : String) : String :=
  ⟨sanAux .normal s.data⟩

/-- Written from the spec's words for C6 (refinement comparison): a
confirmation string stating the byte count of the written content and the
resolved path. -/
def spec_write_confirmation (home p content : String) : String :=
  "Wrote " ++ toString content.utf8ByteSize ++ " bytes to " ++ expanduser home p

/-- `pat` is a leading segment of `l`. -/
def preOf : List Char → List Char → Bool
  | [], _ => true
  | _ :: _, [] => false
  | a :: as, b :: bs => a = b && preOf as bs

/-- `s` contains `pat` as a contiguous substring. -/
def containsStr (s pat : String) : Bool :=
  (List.range (s.data.length + 1)).any fun i => preOf pat.data (s.data.drop i)

/-- Empty host state used in concrete checks. -/
def fsEmpty : FSState := ⟨fun _ => none, fun _ => false⟩

/-- Command oracle on which every command fails to run. -/
def ocNone : CmdOracle := fun _ => none

/-- Command oracle producing empty stdout, stderr `boom`, exit status 2. -/
def ocBoom : CmdOracle := fun _ => some ⟨"", "boom", 2⟩

/-- A reply with one text block and one `read_file` tool request. -/
def replyR0 : Reply := [Block.text "ok", Block.tool_use "id1" "read_file" [("path", Value.str "/f")]]

/-- Host state with one small file `/f`. -/
def fsF : FSState := ⟨fun p => if p = "/f" then some "hi" else none, fun _ => false⟩

/-- A 20000-character string. -/
def bigA : String := ⟨List.replicate 20000 'a'⟩

/-- Host state with the 20000-character file `/big`. -/
def fsBig : FSState := ⟨fun p => if p = "/big" then some bigA else none, fun _ => false⟩

/-! ## Helper lemmas -/

theorem strAppendNeRight (s t : String) (h : t.data ≠ []) : s ++ t ≠ "" := by
  intro e
  have hd : (s ++ t).data = ([] : List Char) := by rw [e]
  rw [String.data_append] at hd
  exact h (List.append_eq_nil.mp hd).2

theorem mem_mkdirAll (d : String) (dirs : String → Bool) (x : String)
    (h : x ∈ ancestors d) : mkdirAll d dirs x = true := by
  simp [mkdirAll, h]

theorem truncTo_length_le (n : Nat) (s : String) : (truncTo n s).length ≤ n := by
  show (s.data.take n).length ≤ n
  rw [List.length_take]
  exact min_le_left ..

theorem univNewlines_no_cr :
    ∀ cs : List Char, (∀ c ∈ cs, c ≠ '\r') → univNewlines cs = cs := by
  intro cs
  induction cs with
  | nil => intro _; rfl
  | cons a cs ih =>
    intro h
    have ha : a ≠ '\r' := h a (List.mem_cons_self a cs)
    cases cs with
    | nil => simp [univNewlines, ha]
    | cons b cs2 =>
      simp only [univNewlines, if_neg ha]
      rw [ih fun c hc => h c (List.mem_cons_of_mem a hc)]

theorem execute_write (home : String) (oc : CmdOracle) (p content : String) (fs : FSState) :
    execute_tool home oc "write_file" [("path", Value.str p), ("content", Value.str content)] fs =
      ("Wrote " ++ toString content.length ++ " bytes to " ++ expanduser home p,
       ⟨fun x => if x = expanduser home p then some content else fs.files x,
        mkdirAll (parentDir (expanduser home p)) fs.dirs⟩) := rfl

theorem execTools_trace_eq (home : String) (oc : CmdOracle) :
    ∀ (ts : List ToolUse) (fs : FSState),
      (execTools home oc ts fs).2.2 = ts.map fun t => Event.toolExec t.name t.input := by
  intro ts
  induction ts with
  | nil => intro fs; rfl
  | cons t ts ih => intro fs; simp [execTools, ih]

theorem execTools_ids_eq (home : String) (oc : CmdOracle) :
    ∀ (ts : List ToolUse) (fs : FSState),
      (execTools home oc ts fs).1.map ToolResult.tool_use_id = ts.map ToolUse.id := by
  intro ts
  induction ts with
  | nil => intro fs; rfl
  | cons t ts ih => intro fs; simp [execTools, ih]

/-! ## Claims -/

/-- C2: `execute_tool` never lets a failure escape: with the `path` key
missing, both `read_file` and `write_file` return a string containing the
word `Error` (totality itself holds by construction: the embedding of the
catch-all handler is a total function into `String × FSState`). -/
theorem c2_executor_error_strings (home : String) (oc : CmdOracle) (input : ToolInput)
    (fs : FSState) (h : input.lookup "path" = none) :
    containsStr (execute_tool home oc "read_file" input fs).1 "Error" = true ∧
    containsStr (execute_tool home oc "write_file" input fs).1 "Error" = true := by
  constructor
  · simp only [show execute_tool home oc "read_file" input fs =
        ("Error: \x27path\x27", fs) by simp [execute_tool, h]]
    decide
  · simp only [show execute_tool home oc "write_file" input fs =
        ("Error: \x27path\x27", fs) by simp [execute_tool, h]]
    decide

theorem c2_witness :
    (([] : ToolInput).lookup "path" = none) ∧
    containsStr (execute_tool "/h" ocNone "read_file" [] fsEmpty).1 "Error" = true :=
  ⟨rfl, (c2_executor_error_strings "/h" ocNone [] fsEmpty rfl).1⟩

/-- C4 counterexample: the round-trip is not exact for every content —
`read_text` opens in universal-newlines mode, so the written content
`a\rb` is read back as `a\nb`. -/
theorem c4_counterexample :
    (execute_tool "/h" ocNone "read_file" [("path", Value.str "/t/n.txt")]
        (execute_tool "/h" ocNone "write_file"
          [("path", Value.str "/t/n.txt"), ("content", Value.str "a\rb")] fsEmpty).2).1 =
      "a\nb" ∧
    ("a\nb" : String) ≠ "a\rb" :=
  ⟨by decide, by decide⟩

/-- C4 (amended): `write_file` followed by `read_file` on the same path
returns the written content with universal-newline translation applied
(`\r\n` and `\r` become `\n`); in particular, for content containing no
carriage return the round-trip returns exactly the written content. -/
theorem c4_round_trip (home : String) (oc : CmdOracle) (p content : String) (fs : FSState) :
    execute_tool home oc "read_file" [("path", Value.str p)]
        (execute_tool home oc "write_file"
          [("path", Value.str p), ("content", Value.str content)] fs).2 =
      (⟨univNewlines content.data⟩,
       (execute_tool home oc "write_file"
         [("path", Value.str p), ("content", Value.str content)] fs).2) ∧
    ((∀ c ∈ content.data, c ≠ '\r') →
      execute_tool home oc "read_file" [("path", Value.str p)]
          (execute_tool home oc "write_file"
            [("path", Value.str p), ("content", Value.str content)] fs).2 =
        (content,
         (execute_tool home oc "write_file"
           [("path", Value.str p), ("content", Value.str content)] fs).2)) := by
  have hread : execute_tool home oc "read_file" [("path", Value.str p)]
      (execute_tool home oc "write_file"
        [("path", Value.str p), ("content", Value.str content)] fs).2 =
      (⟨univNewlines content.data⟩,
       (execute_tool home oc "write_file"
         [("path", Value.str p), ("content", Value.str content)] fs).2) := by
    rw [execute_write]
    simp [execute_tool]
  refine ⟨hread, fun h => ?_⟩
  rw [hread]
  rw [show (⟨univNewlines content.data⟩ : String) = content from
    congrArg String.mk (univNewlines_no_cr content.data h)]

theorem c4_witness :
    (∀ c ∈ ("hello" : String).data, c ≠ '\r') ∧
    execute_tool "/h" ocNone "read_file" [("path", Value.str "/p")]
        (execute_tool "/h" ocNone "write_file"
          [("path", Value.str "/p"), ("content", Value.str "hello")] fsEmpty).2 =
      ("hello",
       (execute_tool "/h" ocNone "write_file"
         [("path", Value.str "/p"), ("content", Value.str "hello")] fsEmpty).2) :=
  ⟨by decide, (c4_round_trip "/h" ocNone "/p" "hello" fsEmpty).2 (by decide)⟩

/-- C5: a `run_command` invocation that completes yields stdout, a labeled
STDERR section exactly when stderr is nonempty, an exit-code marker exactly
when the exit status is nonzero, and the `(no output)` sentinel exactly when
stdout and stderr are empty and the exit status is zero. -/
theorem c5_run_command_format (home : String) (oc : CmdOracle) (input : ToolInput)
    (fs : FSState) (cmd : String) (res : CmdResult)
    (hc : input.lookup "command" = some (Value.str cmd))
    (ho : oc (if sudoFlag input then "sudo " ++ cmd else cmd) = some res) :
    execute_tool home oc "run_command" input fs =
      (if res.stdout = "" ∧ res.stderr = "" ∧ res.returncode = 0 then "(no output)"
       else
         res.stdout ++ (if res.stderr ≠ "" then "\nSTDERR: " ++ res.stderr else "") ++
           (if res.returncode ≠ 0 then "\n[exit code: " ++ toString res.returncode ++ "]"
            else ""),
       fs) := by
  simp only [execute_tool, hc, ho]
  rw [if_pos trivial]
  by_cases hs : res.stderr = "" <;> by_cases hr : res.returncode = 0
  · by_cases hso : res.stdout = "" <;> simp [hs, hr, hso]
  · have hne : res.stdout ++ ("\n[exit code: " ++ (toString res.returncode ++ "]")) ≠ "" := by
      intro e
      have hd := congrArg String.data e
      simp [String.data_append] at hd
    simp [hs, hr, hne, String.append_assoc]
  · have hne : res.stdout ++ ("\nSTDERR: " ++ res.stderr) ≠ "" := by
      intro e
      have hd := congrArg String.data e
      simp [String.data_append] at hd
    simp [hs, hr, hne, String.append_assoc]
  · have hne : res.stdout ++ ("\nSTDERR: " ++ (res.stderr ++
        ("\n[exit code: " ++ (toString res.returncode ++ "]")))) ≠ "" := by
      intro e
      have hd := congrArg String.data e
      simp [String.data_append] at hd
    simp [hs, hr, hne, String.append_assoc]

theorem c5_witness :
    (([("command", Value.str "false")] : ToolInput).lookup "command" =
      some (Value.str "false")) ∧
    (execute_tool "/h" ocBoom "run_command" [("command", Value.str "false")] fsEmpty).1 =
      "\nSTDERR: boom\n[exit code: 2]" := by
  refine ⟨rfl, ?_⟩
  have h := c5_run_command_format "/h" ocBoom [("command", Value.str "false")] fsEmpty
    "false" ⟨"", "boom", 2⟩ rfl rfl
  have h1 := congrArg Prod.fst h
  exact h1.trans (by decide)

/-- C6 counterexample: the claim says the confirmation states the byte
count of the written content; for the one-character, two-byte content `é`
the code reports `len`, i.e. the character count 1, not the byte count 2. -/
theorem c6_counterexample :
    (execute_tool "/h" ocNone "write_file"
        [("path", Value.str "/t/a.txt"), ("content", Value.str "é")] fsEmpty).1 =
      "Wrote 1 bytes to /t/a.txt" ∧
    spec_write_confirmation "/h" "/t/a.txt" "é" = "Wrote 2 bytes to /t/a.txt" ∧
    (execute_tool "/h" ocNone "write_file"
        [("path", Value.str "/t/a.txt"), ("content", Value.str "é")] fsEmpty).1 ≠
      spec_write_confirmation "/h" "/t/a.txt" "é" :=
  ⟨by decide, by decide, by decide⟩

/-- C6 (amended): `write_file` resolves home shorthand, creates all missing
parent directories, stores the content at the resolved path, and returns a
confirmation stating the character count (Python `len`) of the content and
the resolved path; concretely, writing `hello` to `~/test.txt` with home
`/home/user` returns `Wrote 5 bytes to /home/user/test.txt`. -/
theorem c6_write_confirmation (home : String) (oc : CmdOracle) (p content : String)
    (fs : FSState) :
    (execute_tool home oc "write_file"
        [("path", Value.str p), ("content", Value.str content)] fs).1 =
      "Wrote " ++ toString content.length ++ " bytes to " ++ expanduser home p ∧
    (execute_tool home oc "write_file"
        [("path", Value.str p), ("content", Value.str content)] fs).2.files
        (expanduser home p) = some content ∧
    (∀ d ∈ ancestors (parentDir (expanduser home p)),
      (execute_tool home oc "write_file"
        [("path", Value.str p), ("content", Value.str content)] fs).2.dirs d = true) ∧
    (execute_tool "/home/user" ocNone "write_file"
        [("path", Value.str "~/test.txt"), ("content", Value.str "hello")] fsEmpty).1 =
      "Wrote 5 bytes to /home/user/test.txt" := by
  refine ⟨?_, ?_, ?_, by decide⟩
  · rw [execute_write]
  · rw [execute_write]
    simp
  · intro d hd
    rw [execute_write]
    exact mem_mkdirAll _ _ _ hd

theorem c6_witness :
    "/a" ∈ ancestors (parentDir (expanduser "/h" "/a/b.txt")) ∧
    (execute_tool "/h" ocNone "write_file"
        [("path", Value.str "/a/b.txt"), ("content", Value.str "x")] fsEmpty).2.dirs "/a" =
      true :=
  ⟨by decide,
   (c6_write_confirmation "/h" ocNone "/a/b.txt" "x" fsEmpty).2.2.1 "/a" (by decide)⟩

/-- C7: a non-200 transport response makes the process exit with the
nonzero code 1 after surfacing the raw status and body, with no retry and
no reply returned; a 200 response returns the parsed body. -/
theorem c7_http_fatal (resp : HttpResponse) :
    (resp.status_code ≠ 200 →
      call_claude resp =
        TransportOutcome.exitProcess 1
          ["API Error: " ++ toString resp.status_code, resp.text] ∧
      (1 : Nat) ≠ 0) ∧
    (resp.status_code = 200 → call_claude resp = TransportOutcome.success resp.json) := by
  constructor
  · intro h
    exact ⟨by simp [call_claude, h], by decide⟩
  · intro h
    simp [call_claude, h]

theorem c7_witness :
    (404 : Nat) ≠ 200 ∧
    call_claude ⟨404, "Overloaded", []⟩ =
      TransportOutcome.exitProcess 1 ["API Error: 404", "Overloaded"] := by
  refine ⟨by decide, ?_⟩
  have h := (c7_http_fatal ⟨404, "Overloaded", []⟩).1 (by decide)
  exact h.1.trans (by decide)

/-- C9: a `write_file` call whose input has `path` but no `content` creates
the parent directories first and then fails with an error string; the files
are untouched and the created directories stay in place. -/
theorem c9_mkdir_not_rolled_back (home : String) (oc : CmdOracle) (input : ToolInput)
    (fs : FSState) (p : String)
    (hp : input.lookup "path" = some (Value.str p))
    (hc : input.lookup "content" = none) :
    (execute_tool home oc "write_file" input fs).1 = "Error: \x27content\x27" ∧
    (execute_tool home oc "write_file" input fs).2.files = fs.files ∧
    (∀ d ∈ ancestors (parentDir (expanduser home p)),
      (execute_tool home oc "write_file" input fs).2.dirs d = true) := by
  have key : execute_tool home oc "write_file" input fs =
      ("Error: \x27content\x27",
       ⟨fs.files, mkdirAll (parentDir (expanduser home p)) fs.dirs⟩) := by
    simp [execute_tool, hp, hc]
  rw [key]
  refine ⟨rfl, rfl, ?_⟩
  intro d hd
  exact mem_mkdirAll _ _ _ hd

theorem c9_witness :
    (([("path", Value.str "/a/b/c.txt")] : ToolInput).lookup "path" =
      some (Value.str "/a/b/c.txt")) ∧
    (([("path", Value.str "/a/b/c.txt")] : ToolInput).lookup "content" = none) ∧
    (execute_tool "/h" ocNone "write_file" [("path", Value.str "/a/b/c.txt")] fsEmpty).1 =
      "Error: \x27content\x27" :=
  ⟨rfl, rfl,
   (c9_mkdir_not_rolled_back "/h" ocNone [("path", Value.str "/a/b/c.txt")] fsEmpty
     "/a/b/c.txt" rfl rfl).1⟩

/-- C10 counterexample: the input `exit` is non-blank, yet the session
shell appends nothing to history — it ends the session instead of
appending the stripped text, refuting the claim as stated. -/
theorem c10_counterexample :
    pyStrip "exit" ≠ "" ∧
    classifyInput "exit" ≠ InputAction.proceed (pyStrip "exit") ∧
    userTurn "/h" ocNone "exit" [] [] fsEmpty = some ([], fsEmpty, []) :=
  ⟨by decide, by decide, rfl⟩

/-- C10 (amended): a blank-after-strip input skips the turn entirely
(nothing appended, no transport call); a non-blank input that is not an
exit keyword proceeds, appending exactly the stripped text as the user
message. -/
theorem c10_session_input (home : String) (oc : CmdOracle) (raw : String)
    (replies : List Reply) (msgs : List Message) (fs : FSState) :
    (pyStrip raw = "" →
      classifyInput raw = InputAction.skip ∧
      userTurn home oc raw replies msgs fs = some (msgs, fs, [])) ∧
    (pyStrip raw ≠ "" → pyLower (pyStrip raw) ∉ quitWords →
      classifyInput raw = InputAction.proceed (pyStrip raw) ∧
      userTurn home oc raw replies msgs fs =
        runAgentLoop home oc replies
          (msgs ++ [⟨"user", MsgContent.text (pyStrip raw)⟩]) fs) := by
  constructor
  · intro h
    have hcl : classifyInput raw = InputAction.skip := by simp [classifyInput, h]
    exact ⟨hcl, by simp [userTurn, hcl]⟩
  · intro h1 h2
    have hcl : classifyInput raw = InputAction.proceed (pyStrip raw) := by
      simp [classifyInput, h1, h2]
    exact ⟨hcl, by simp [userTurn, hcl]⟩

/-- C1: one turn of the inner agent loop.  With zero tool requests the
turn ends after exactly one transport call, appending only the assistant
reply.  With N ≥ 1 tool requests the loop performs one Executor call per
`tool_use` block, in block order, all before the next transport call; the
results are wrapped with the originating ids in the same order and appended
as one user message, and the loop continues with the next reply. -/
theorem c1_agent_loop (home : String) (oc : CmdOracle) (r : Reply) (rest : List Reply)
    (msgs : List Message) (fs : FSState) :
    (toolCalls r = [] →
      runAgentLoop home oc (r :: rest) msgs fs =
        some (msgs ++ [⟨"assistant", MsgContent.blocks r⟩], fs, [Event.transportCall])) ∧
    (toolCalls r ≠ [] →
      (execTools home oc (toolCalls r) fs).2.2 =
          (toolCalls r).map (fun t => Event.toolExec t.name t.input) ∧
      (execTools home oc (toolCalls r) fs).1.map ToolResult.tool_use_id =
          (toolCalls r).map ToolUse.id ∧
      runAgentLoop home oc (r :: rest) msgs fs =
        (match runAgentLoop home oc rest
            (msgs ++ [⟨"assistant", MsgContent.blocks r⟩,
                      ⟨"user", MsgContent.results (execTools home oc (toolCalls r) fs).1⟩])
            (execTools home oc (toolCalls r) fs).2.1 with
         | none => none
         | some (m, f, evs) =>
             some (m, f, Event.transportCall :: (execTools home oc (toolCalls r) fs).2.2 ++ evs))) := by
  constructor
  · intro h
    simp [runAgentLoop, h]
  · intro h
    refine ⟨execTools_trace_eq home oc (toolCalls r) fs,
            execTools_ids_eq home oc (toolCalls r) fs, ?_⟩
    simp only [runAgentLoop]
    rw [if_neg h]

theorem c1_witness :
    toolCalls replyR0 ≠ [] ∧
    (execTools "/h" ocNone (toolCalls replyR0) fsF).2.2 =
      (toolCalls replyR0).map (fun t => Event.toolExec t.name t.input) :=
  ⟨by decide,
   ((c1_agent_loop "/h" ocNone replyR0 [[Block.text "done"]] [] fsF).2 (by decide)).1⟩

/-- C3: every tool result placed into history is the Executor's result
string truncated to its first 10000 characters with no marker appended:
the head result of the dispatch loop is exactly `truncTo 10000` of the
Executor's string, every stored result has length at most 10000, and a
20000-character result (the file `/big`) is stored as exactly its first
10000 characters. -/
theorem c3_truncation (home : String) (oc : CmdOracle) :
    (∀ (i n : String) (inp : ToolInput) (ts : List ToolUse) (fs : FSState),
      (execTools home oc (⟨i, n, inp⟩ :: ts) fs).1 =
        ⟨i, truncTo 10000 (execute_tool home oc n inp fs).1⟩ ::
          (execTools home oc ts (execute_tool home oc n inp fs).2).1) ∧
    (∀ (ts : List ToolUse) (fs : FSState) (b : ToolResult),
      b ∈ (execTools home oc ts fs).1 → b.content.length ≤ 10000) ∧
    (execTools home oc [⟨"id1", "read_file", [("path", Value.str "/big")]⟩] fsBig).1 =
      [⟨"id1", ⟨List.replicate 10000 'a'⟩⟩] := by
  refine ⟨fun i n inp ts fs => rfl, ?_, ?_⟩
  · intro ts
    induction ts with
    | nil => intro fs b hb; simp [execTools] at hb
    | cons t ts ih =>
      intro fs b hb
      simp only [execTools] at hb
      rcases List.mem_cons.mp hb with hb | hb
      · rw [hb]
        exact truncTo_length_le 10000 _
      · exact ih _ b hb
  · have h1 : (execTools home oc [⟨"id1", "read_file", [("path", Value.str "/big")]⟩] fsBig).1 =
        [⟨"id1", truncTo 10000 ⟨univNewlines bigA.data⟩⟩] := rfl
    rw [h1]
    have h0 : univNewlines bigA.data = List.replicate 20000 'a' := by
      rw [show bigA.data = List.replicate 20000 'a' from rfl]
      exact univNewlines_no_cr _ fun c hc => by
        rw [List.eq_of_mem_replicate hc]
        decide
    rw [h0]
    have h2 : truncTo 10000 (⟨List.replicate 20000 'a'⟩ : String) =
        ⟨List.replicate 10000 'a'⟩ := by
      show (⟨(List.replicate 20000 'a').take 10000⟩ : String) = ⟨List.replicate 10000 'a'⟩
      rw [List.take_replicate]
      norm_num
    rw [h2]

theorem c3_witness :
    (⟨"id1", "hi"⟩ : ToolResult) ∈ (execTools "/h" ocNone (toolCalls replyR0) fsF).1 ∧
    (⟨"id1", "hi"⟩ : ToolResult).content.length ≤ 10000 :=
  ⟨by decide, (c3_truncation "/h" ocNone).2.1 (toolCalls replyR0) fsF ⟨"id1", "hi"⟩ (by decide)⟩

theorem sanStep_emit_keep (m : SanMode) (c : Char) :
    (sanStep m c).2 = true → keepChar c = true := by
  cases m <;> simp only [sanStep] <;> split_ifs <;> simp

theorem sanAux_keep :
    ∀ (cs : List Char) (m : SanMode) (c : Char), c ∈ sanAux m cs → keepChar c = true := by
  intro cs
  induction cs with
  | nil => intro m c h; simp [sanAux] at h
  | cons a cs ih =>
    intro m c h
    simp only [sanAux] at h
    by_cases he : (sanStep m a).2 = true
    · rw [if_pos he] at h
      rcases List.mem_cons.mp h with h | h
      · rw [h]
        exact sanStep_emit_keep m a he
      · exact ih _ c h
    · rw [if_neg he] at h
      exact ih _ c h

theorem keepChar_ne_esc (c : Char) (h : keepChar c = true) : ¬ c = '\x1b' := by
  intro e
  rw [e] at h
  exact absurd h (by decide)

theorem sanAux_id_of_keep :
    ∀ cs : List Char, (∀ c ∈ cs, keepChar c = true) → sanAux .normal cs = cs := by
  intro cs
  induction cs with
  | nil => intro _; rfl
  | cons a cs ih =>
    intro h
    have ha : keepChar a = true := h a (List.mem_cons_self a cs)
    have hne : ¬ a = '\x1b' := keepChar_ne_esc a ha
    have hstep : sanStep .normal a = (.normal, keepChar a) := by
      simp [sanStep, hne]
    simp only [sanAux, hstep, ha, if_pos]
    rw [ih fun c hc => h c (List.mem_cons_of_mem a hc)]

/-- C8: pty-output sanitization (modelled from the spec, §4.3) is
idempotent, and its output contains no residual escape or control bytes:
every character of the sanitized text satisfies `keepChar` (printable or
tab/CR/LF, not ESC, not DEL, not the artifact character). -/
theorem c8_sanitize_idempotent (s : String) :
    sanitize_output (sanitize_output s) = sanitize_output s ∧
    ∀ c ∈ (sanitize_output s).data, keepChar c = true := by
  constructor
  · exact congrArg String.mk
      (sanAux_id_of_keep (sanAux .normal s.data) fun c hc => sanAux_keep _ _ _ hc)
  · intro c hc
    exact sanAux_keep s.data .normal c hc

theorem c8_witness :
    'a' ∈ (sanitize_output "a\x1b[31m").data ∧ keepChar 'a' = true :=
  ⟨by decide, (c8_sanitize_idempotent "a\x1b[31m").2 'a' (by decide)⟩

theorem c10_witness :
    pyStrip " hi " ≠ "" ∧ pyLower (pyStrip " hi ") ∉ quitWords ∧
    classifyInput " hi " = InputAction.proceed (pyStrip " hi ") :=
  ⟨by decide, by decide,
   ((c10_session_input "/h" ocNone " hi " [] [] fsEmpty).2 (by decide) (by decide)).1⟩

end Hex
